import Mathlib

/-!
Verification of the Rita lateness-simulator core (`src/config.py`, `src/matcher.py`,
`src/simulator.py`, `src/montecarlo.py`, `src/main.py`) against its specification.

Modelling conventions:
* A `datetime` is a rational number of seconds (timezone-naive, one fixed origin);
  `timedelta.total_seconds()` is plain subtraction.  Python's `timedelta.seconds`
  attribute (used in `fetch_and_pair`) is modelled by `tdSeconds`.
* Every call of `np.random.triangular` is an abstract rational draw supplied by the
  environment: a `Omega` record per `simulate_step` call (one walk jitter, a stream of
  bus-departure jitters consumed in scan order with the fallback draw at index
  `trips.length`, one ride jitter, one final-walk jitter).  Distributional facts
  (triangular shape) are not modelled; bounds hypotheses stand in for the support.
* The global random generator is modelled by counters: `drawCount` indexes the stream
  of per-call `Omega` draws, `fetchCount` the successive results of
  `fetch_arrival_datetimes` (the network is an oracle `fetches : Nat -> List Q`).
-/

namespace RMK

/-! ### Constants from `src/config.py` -/

def WALK_DURATION_HOME_TO_ZOO : ℚ := 5 * 60

def WALK_DURATION_TOOMPARK_TO_OFFICE : ℚ := 4 * 60

def BUS_TRAVEL_BASE_SECONDS : ℚ := 720

def MONTE_CARLO_ITERATIONS : ℕ := 200000

def WALK_VARIABILITY_SECONDS : ℚ := 30

def BUS_TRAVEL_VARIABILITY_SECONDS : ℚ := 60

def BUS_DEPARTURE_JITTER_SECONDS : ℚ := 20

def STEP_INTERVAL_SECONDS : ℚ := 30

/-! ### `src/matcher.py` -/

/-- `_MIN_TRAVEL_SECONDS = BUS_TRAVEL_BASE_SECONDS - BUS_TRAVEL_VARIABILITY_SECONDS`
(matcher.py line 14). -/
def MIN_TRAVEL_SECONDS : ℚ := BUS_TRAVEL_BASE_SECONDS - BUS_TRAVEL_VARIABILITY_SECONDS

/-- The two-pointer loop of `pair_departure_and_destination` (matcher.py lines 55-69),
generalised over the minimum-travel threshold `m`, with the arrivals cursor as the
first (structurally decreasing) argument: the arrivals list shrinks on every
iteration, the departures list only on an emit.  `dt >= _MIN_TRAVEL_SECONDS` appends
the pair and advances both cursors, otherwise only the arrivals cursor. -/
def pairGo (m : ℚ) : List ℚ → List ℚ → List (ℚ × ℚ)
  | [], _ => []
  | _ :: _, [] => []
  | a :: as, d :: ds =>
    if m ≤ a - d then (d, a) :: pairGo m as ds
    else pairGo m as (d :: ds)

/-- The loop of matcher.py lines 50-71 in source argument order
(departures, arrivals). -/
def pairAux (m : ℚ) (ds as : List ℚ) : List (ℚ × ℚ) := pairGo m as ds

/-- `pair_departure_and_destination(departure_arrivals, destination_arrivals)`
(matcher.py lines 17-71), at the module constant `_MIN_TRAVEL_SECONDS`. -/
def pair_departure_and_destination (departure_arrivals destination_arrivals : List ℚ) :
    List (ℚ × ℚ) :=
  pairAux MIN_TRAVEL_SECONDS departure_arrivals destination_arrivals

/-! ### `src/simulator.py` -/

/-- The random draws consumed by one call of `Simulator.simulate_step`: the walk
jitter, the stream of per-trip bus-departure jitters drawn inside
`_find_catchable_bus` (the fallback draw is the next one after the scan, i.e. index
`trips.length`), the ride jitter and the final-walk jitter.  Each is one
`np.random.triangular` draw, modelled as an arbitrary rational. -/
structure Omega where
  walkJitter : ℚ
  depJitters : ℕ → ℚ
  rideJitter : ℚ
  finalWalkJitter : ℚ

/-- The dict returned by `Simulator.simulate_step` (simulator.py lines 108-118). -/
structure Sample where
  departure : ℚ
  walkEnd : ℚ
  walkDur : ℚ
  busDep : ℚ
  waitDur : ℚ
  rideDur : ℚ
  busArr : ℚ
  arrival : ℚ
  lateness : ℚ
deriving DecidableEq

/-- The scan loop of `_find_catchable_bus` (simulator.py lines 33-38): jitter each
scheduled departure in order, return the first whose jittered departure is
`>= arrive_zoo`, together with the scheduled arrival and the scheduled ride span. -/
def findScan (jit : ℕ → ℚ) (arriveZoo : ℚ) : List (ℚ × ℚ) → ℕ → Option (ℚ × ℚ × ℚ)
  | [], _ => none
  | (d, a) :: rest, i =>
    if arriveZoo ≤ d + jit i then some (d + jit i, a, a - d)
    else findScan jit arriveZoo rest (i + 1)

/-- `_find_catchable_bus(arrive_zoo, trips)` (simulator.py lines 12-45).  Empty trip
list: `(arrive_zoo, arrive_zoo, 0.0)`.  Otherwise scan; if no jittered departure is
late enough, fall back to the last trip with a fresh jitter draw. -/
def find_catchable_bus (jit : ℕ → ℚ) (arriveZoo : ℚ) (trips : List (ℚ × ℚ)) :
    ℚ × ℚ × ℚ :=
  match trips with
  | [] => (arriveZoo, arriveZoo, 0)
  | t :: ts =>
    match findScan jit arriveZoo (t :: ts) 0 with
    | some r => r
    | none =>
      let last := (t :: ts).getLast (List.cons_ne_nil t ts)
      (last.1 + jit (t :: ts).length, last.2, last.2 - last.1)

/-- The constructor arguments of `Simulator` (simulator.py lines 48-61). -/
structure Simulator where
  class_start : ℚ
  walk_home : ℚ
  walk_office : ℚ

/-- `Simulator.simulate_step(departure, trips)` (simulator.py lines 63-118), with the
four triangular draws of the call supplied by `ω`. -/
def simulate_step (sim : Simulator) (ω : Omega) (departure : ℚ)
    (trips : List (ℚ × ℚ)) : Sample :=
  let walk_end := departure + (sim.walk_home + ω.walkJitter)
  let walk_dur := walk_end - departure
  let r := find_catchable_bus ω.depJitters walk_end trips
  let bus_dep_actual := r.1
  let base_ride := r.2.2
  let wait_dur := max 0 (bus_dep_actual - walk_end)
  let ride_dur := base_ride + ω.rideJitter
  let bus_arrival := bus_dep_actual + ride_dur
  let arrival := bus_arrival + (sim.walk_office + ω.finalWalkJitter)
  let lateness := max 0 (arrival - sim.class_start)
  { departure := departure, walkEnd := walk_end, walkDur := walk_dur,
    busDep := bus_dep_actual, waitDur := wait_dur, rideDur := ride_dur,
    busArr := bus_arrival, arrival := arrival, lateness := lateness }

/-! ### `src/montecarlo.py` -/

/-- The trial loop of `compute_lateness_probability` (montecarlo.py lines 32-36):
number of the `n` successive `simulate_step` samples, starting at draw index `dc`,
whose lateness is `> 0`. -/
def countLate (sim : Simulator) (draws : ℕ → Omega) (departure : ℚ)
    (trips : List (ℚ × ℚ)) : ℕ → ℕ → ℕ
  | _, 0 => 0
  | dc, n + 1 =>
    (if 0 < (simulate_step sim (draws dc) departure trips).lateness then 1 else 0) +
      countLate sim draws departure trips (dc + 1) n

/-- `compute_lateness_probability(sim, departure, trips, mc_iterations)`
(montecarlo.py lines 16-37).  `mc_iterations` is a Python `int`; for a negative value
`range(mc_iterations)` is empty (`Int.toNat` of a negative is `0`), and for
`mc_iterations = 0` the final division `late_count / mc_iterations` raises
`ZeroDivisionError`, modelled as `none`. -/
def compute_lateness_probability (sim : Simulator) (draws : ℕ → Omega) (dc : ℕ)
    (departure : ℚ) (trips : List (ℚ × ℚ)) (mc_iterations : ℤ) : Option ℚ :=
  if mc_iterations = 0 then none
  else
    some ((countLate sim draws departure trips dc mc_iterations.toNat : ℚ) /
      (mc_iterations : ℚ))

/-! ### `src/main.py` -/

/-- Python's `timedelta.seconds` attribute for a duration of `d` (rational) seconds:
the normalised seconds-within-day component, `floor d` modulo `86400` (Euclidean, so
always in `[0, 86400)`).  Used by `fetch_and_pair` (main.py line 80). -/
def tdSeconds (d : ℚ) : ℤ := ⌊d⌋ % 86400

/-- The environment of one `simulate_curve` run: the successive return values of
`fetch_arrival_datetimes` (an oracle; the real fetcher returns `[]` on any failure),
the successive `Omega` draws of the global generator (one per `simulate_step` call),
and `class_start` (main.py line 99: the meeting deadline combined onto the start
date). -/
structure SweepEnv where
  fetches : ℕ → List ℚ
  draws : ℕ → Omega
  class_start : ℚ

/-- The mutable state of the `simulate_curve` loop (main.py lines 104-107), plus the
two oracle cursors `fetchCount` (number of `fetch_arrival_datetimes` calls made) and
`drawCount` (number of `simulate_step` calls made). -/
structure SweepState where
  trips : List (ℚ × ℚ)
  lastFetch : Option ℚ
  fetchCount : ℕ
  drawCount : ℕ
  times : List ℚ
  probs : List ℚ
deriving DecidableEq

/-- `fetch_and_pair(last_fetch, current)` (main.py lines 69-84): if `last_fetch` is
`None` or `(current - last_fetch).seconds >= 300`, fetch both series (consuming two
oracle entries) and pair them, returning the new `last_fetch = current`; otherwise
return `([], last_fetch)` without fetching.  Result: `(trips, lastFetch, fetchCount)`. -/
def fetch_and_pair (env : SweepEnv) (fc : ℕ) (lastFetch : Option ℚ) (current : ℚ) :
    List (ℚ × ℚ) × Option ℚ × ℕ :=
  match lastFetch with
  | none =>
    (pair_departure_and_destination (env.fetches fc) (env.fetches (fc + 1)),
      some current, fc + 2)
  | some lf =>
    if 300 ≤ tdSeconds (current - lf) then
      (pair_departure_and_destination (env.fetches fc) (env.fetches (fc + 1)),
        some current, fc + 2)
    else ([], some lf, fc)

/-- The common update pattern `new_trips, last_fetch = fetch_and_pair(...)` followed
by `if new_trips: trips = new_trips` (main.py lines 116-118 and 127-129): the trip
list is adopted only when non-empty, `last_fetch` and the fetch cursor always. -/
def adoptFetch (st : SweepState) (r : List (ℚ × ℚ) × Option ℚ × ℕ) : SweepState :=
  { st with
    trips := if r.1 = [] then st.trips else r.1,
    lastFetch := r.2.1,
    fetchCount := r.2.2 }

/-- Step part 1 (main.py lines 114-119): only when the trip list is empty is
`fetch_and_pair` consulted at all. -/
def refreshIfEmpty (env : SweepEnv) (st : SweepState) (current : ℚ) : SweepState :=
  if st.trips = [] then adoptFetch st (fetch_and_pair env st.fetchCount st.lastFetch current)
  else st

/-- The `Simulator` built by `simulate_curve` (main.py lines 98-102). -/
def sweepSim (env : SweepEnv) : Simulator :=
  { class_start := env.class_start,
    walk_home := WALK_DURATION_HOME_TO_ZOO,
    walk_office := WALK_DURATION_TOOMPARK_TO_OFFICE }

/-- Step part 3 (main.py lines 124-132): if the drawn sample has
`bus_dep < walk_end`, run `fetch_and_pair` again (same interval-guarded function),
adopt its result, and re-draw one sample from the (possibly unchanged) trips. -/
def stalenessPhase (env : SweepEnv) (st : SweepState) (current : ℚ) (s : Sample) :
    SweepState × Sample :=
  if s.busDep < s.walkEnd then
    let st1 := adoptFetch st (fetch_and_pair env st.fetchCount st.lastFetch current)
    let s2 := simulate_step (sweepSim env) (env.draws st1.drawCount) current st1.trips
    ({ st1 with drawCount := st1.drawCount + 1 }, s2)
  else (st, s)

/-- The state just before the Monte Carlo estimate of one sweep step: refresh-if-empty
(lines 114-119), one sample draw (line 122), staleness re-draw (lines 124-132). -/
def preEstimate (env : SweepEnv) (st : SweepState) (current : ℚ) : SweepState :=
  let st1 := refreshIfEmpty env st current
  let s := simulate_step (sweepSim env) (env.draws st1.drawCount) current st1.trips
  let st2 := { st1 with drawCount := st1.drawCount + 1 }
  (stalenessPhase env st2 current s).1

/-- `raw_p = compute_lateness_probability(sim, current, trips, MONTE_CARLO_ITERATIONS)`
(main.py line 150).  `MONTE_CARLO_ITERATIONS = 200000` is a positive literal, so the
Option wrapper of `compute_lateness_probability` is bypassed: this is its `some`
payload at that argument. -/
def stepRaw (env : SweepEnv) (st : SweepState) (current : ℚ) : ℚ :=
  (countLate (sweepSim env) env.draws current st.trips st.drawCount
      MONTE_CARLO_ITERATIONS : ℚ) / (MONTE_CARLO_ITERATIONS : ℚ)

/-- One iteration of the `while current <= end` body of `simulate_curve`
(main.py lines 113-159, sleeping omitted): phases 1-3, the raw Monte Carlo estimate,
the monotonicity clamp `raw_p = max(raw_p, probs[-1]) if probs` (lines 151-153), and
the appends to `times` and `probs`. -/
def sweepStep (env : SweepEnv) (st : SweepState) (current : ℚ) : SweepState :=
  let st3 := preEstimate env st current
  let raw := stepRaw env st3 current
  let p := match st3.probs.getLast? with
    | none => raw
    | some prev => max raw prev
  { st3 with
    drawCount := st3.drawCount + MONTE_CARLO_ITERATIONS,
    times := st3.times ++ [current],
    probs := st3.probs ++ [p] }

/-- The `while current <= end` loop of `simulate_curve` (main.py lines 113-167),
fuelled (the Python loop advances `current` by `step` each iteration; with a positive
step and enough fuel the recursion covers the whole window). -/
def runSweep (env : SweepEnv) (stepSize endT : ℚ) : ℕ → ℚ → SweepState → SweepState
  | 0, _, st => st
  | fuel + 1, current, st =>
    if current ≤ endT then
      runSweep env stepSize endT fuel (current + stepSize) (sweepStep env st current)
    else st

/-- The initial state of `simulate_curve` (main.py lines 104-108): no trips, no
recorded fetch, empty output lists. -/
def initState : SweepState :=
  { trips := [], lastFetch := none, fetchCount := 0, drawCount := 0,
    times := [], probs := [] }

/-- `simulate_curve(start, end, step)` (main.py lines 87-170): the returned
`(times, probs)` pair. -/
def simulate_curve (env : SweepEnv) (start endT stepSize : ℚ) (fuel : ℕ) :
    List ℚ × List ℚ :=
  let final := runSweep env stepSize endT fuel start initState
  (final.times, final.probs)

/-- A degenerate draw: all four jitters zero. -/
def omega0 : Omega := { walkJitter := 0, depJitters := fun _ => 0, rideJitter := 0, finalWalkJitter := 0 }

/-- A degenerate simulator for concrete instantiations. -/
def sim0 : Simulator := { class_start := 0, walk_home := 0, walk_office := 0 }

/-- Environment for the empty-schedule scenario: every fetch fails (returns `[]`),
all jitters are zero, the meeting deadline is at `t = 10000`. -/
def env3 : SweepEnv :=
  { fetches := fun _ => [], draws := fun _ => omega0, class_start := 10000 }

/-- Environment whose fetch oracle has fresh schedule data available
(`[0]` then `[700]`, which the Matcher pairs to `[(0, 700)]`). -/
def env5 : SweepEnv :=
  { fetches := fun k => if k % 2 = 0 then [0] else [700],
    draws := fun _ => omega0, class_start := 10000 }

/-- Sweep state with an empty trip list and a recent fetch (at `t = 0`). -/
def st5 : SweepState :=
  { trips := [], lastFetch := some 0, fetchCount := 0, drawCount := 0,
    times := [], probs := [] }

/-- Sweep state with a non-empty trip list and a stale fetch (at `t = 0`). -/
def st5b : SweepState :=
  { trips := [(0, 700)], lastFetch := some 0, fetchCount := 2, drawCount := 0,
    times := [], probs := [] }

/-- Sweep state for the staleness scenario: one known trip already in the past,
last fetch at `t = 0`, two fetch-oracle entries consumed. -/
def st6 : SweepState :=
  { trips := [(0, 700)], lastFetch := some 0, fetchCount := 2, drawCount := 1,
    times := [], probs := [] }

/-- The sample drawn at `current = 100` from the stale trip list of `st6` with zero
jitters: the walk ends at `t = 400`, the only (jittered) departure is at `t = 0`, so
the fallback branch yields `bus_dep = 0 < 400 = walk_end`. -/
def s6 : Sample := simulate_step (sweepSim env5) omega0 100 [(0, 700)]

/-! ### Helper lemmas -/

theorem adoptFetch_of_empty_trips (st : SweepState) (pairs : List (ℚ × ℚ))
    (lf2 : Option ℚ) (fc2 : ℕ) (ht : st.trips = []) :
    (adoptFetch st (pairs, lf2, fc2)).trips = pairs ∧
    (adoptFetch st (pairs, lf2, fc2)).lastFetch = lf2 ∧
    (adoptFetch st (pairs, lf2, fc2)).fetchCount = fc2 := by
  refine ⟨?_, rfl, rfl⟩
  simp only [adoptFetch]
  split
  · rw [ht]
    exact Eq.symm (by assumption)
  · rfl

theorem pairAux_snd_sublist (m : ℚ) :
    ∀ (as ds : List ℚ), ((pairAux m ds as).map Prod.snd).Sublist as := by
  intro as
  induction as with
  | nil => intro ds; cases ds <;> simp [pairAux, pairGo]
  | cons a as ih =>
    intro ds
    cases ds with
    | nil => simp [pairAux, pairGo]
    | cons d ds =>
      by_cases h : m ≤ a - d
      · simpa [pairAux, pairGo, h] using (ih ds).cons₂ a
      · simpa [pairAux, pairGo, h] using (ih (d :: ds)).trans (List.sublist_cons_self a as)

theorem pairAux_fst_sublist (m : ℚ) :
    ∀ (as ds : List ℚ), ((pairAux m ds as).map Prod.fst).Sublist ds := by
  intro as
  induction as with
  | nil => intro ds; cases ds <;> simp [pairAux, pairGo]
  | cons a as ih =>
    intro ds
    cases ds with
    | nil => simp [pairAux, pairGo]
    | cons d ds =>
      by_cases h : m ≤ a - d
      · simpa [pairAux, pairGo, h] using (ih ds).cons₂ d
      · simpa [pairAux, pairGo, h] using ih (d :: ds)

theorem pairAux_gap (m : ℚ) :
    ∀ (as ds : List ℚ), ∀ p ∈ pairAux m ds as, m ≤ p.2 - p.1 := by
  intro as
  induction as with
  | nil => intro ds; cases ds <;> simp [pairAux, pairGo]
  | cons a as ih =>
    intro ds
    cases ds with
    | nil => simp [pairAux, pairGo]
    | cons d ds =>
      by_cases h : m ≤ a - d
      · intro p hp
        rw [pairAux, pairGo, if_pos h] at hp
        rcases List.mem_cons.mp hp with hp1 | hp1
        · simpa [hp1] using h
        · exact ih ds p hp1
      · intro p hp
        rw [pairAux, pairGo, if_neg h] at hp
        exact ih (d :: ds) p hp

/-! ### Claim theorems: matcher (C7, C10) -/

/-- C7: for every pair of ascending input lists, the Matcher's output is sorted
ascending by departure time, every emitted pair satisfies
`arrival - departure >= minimum_travel_duration` where the minimum travel duration is
`base_travel_time - travel_time_variability`, and empty inputs yield an empty
output. -/
theorem c7_matcher_sorted_gap_empty (deps arrs : List ℚ)
    (hd : deps.Sorted (· ≤ ·)) (ha : arrs.Sorted (· ≤ ·)) :
    ((pair_departure_and_destination deps arrs).map Prod.fst).Sorted (· ≤ ·) ∧
    (∀ p ∈ pair_departure_and_destination deps arrs,
      MIN_TRAVEL_SECONDS ≤ p.2 - p.1) ∧
    MIN_TRAVEL_SECONDS = BUS_TRAVEL_BASE_SECONDS - BUS_TRAVEL_VARIABILITY_SECONDS ∧
    pair_departure_and_destination [] arrs = [] ∧
    pair_departure_and_destination deps [] = [] := by
  refine ⟨hd.sublist (pairAux_fst_sublist MIN_TRAVEL_SECONDS arrs deps),
    pairAux_gap MIN_TRAVEL_SECONDS arrs deps, rfl, ?_, ?_⟩
  · cases arrs <;> simp [pair_departure_and_destination, pairAux, pairGo]
  · cases deps <;> simp [pair_departure_and_destination, pairAux, pairGo]

/-- C7 witness: the theorem instantiated at sorted inputs
`deps = [0, 600]`, `arrs = [700, 1400]`. -/
theorem c7_witness :
    List.Sorted (· ≤ ·) [(0 : ℚ), 600] ∧ List.Sorted (· ≤ ·) [(700 : ℚ), 1400] ∧
    (((pair_departure_and_destination [0, 600] [700, 1400]).map Prod.fst).Sorted
        (· ≤ ·) ∧
      (∀ p ∈ pair_departure_and_destination [0, 600] [700, 1400],
        MIN_TRAVEL_SECONDS ≤ p.2 - p.1) ∧
      MIN_TRAVEL_SECONDS = BUS_TRAVEL_BASE_SECONDS - BUS_TRAVEL_VARIABILITY_SECONDS ∧
      pair_departure_and_destination [] [700, 1400] = [] ∧
      pair_departure_and_destination [0, 600] [] = []) :=
  ⟨by decide, by decide,
    c7_matcher_sorted_gap_empty [0, 600] [700, 1400] (by decide) (by decide)⟩

/-- C10 as stated is false: the emitted arrival times need not be strictly
increasing.  With sorted inputs `deps = [0, 1]`, `arrs = [700, 700]` (a tied pair of
arrivals) the matcher emits `[(0, 700), (1, 700)]`, whose arrival component
`[700, 700]` is not strictly increasing. -/
theorem c10_counterexample :
    List.Sorted (· ≤ ·) [(0 : ℚ), 1] ∧ List.Sorted (· ≤ ·) [(700 : ℚ), 700] ∧
    pair_departure_and_destination [0, 1] [700, 700] = [(0, 700), (1, 700)] ∧
    ¬ ((pair_departure_and_destination [0, 1] [700, 700]).map Prod.snd).Sorted
        (· < ·) := by
  refine ⟨by decide, by decide, ?_, ?_⟩
  · norm_num [pair_departure_and_destination, pairAux, pairGo, MIN_TRAVEL_SECONDS,
      BUS_TRAVEL_BASE_SECONDS, BUS_TRAVEL_VARIABILITY_SECONDS]
  · norm_num [pair_departure_and_destination, pairAux, pairGo, MIN_TRAVEL_SECONDS,
      BUS_TRAVEL_BASE_SECONDS, BUS_TRAVEL_VARIABILITY_SECONDS, List.Sorted]

/-- C10 (amended): for every pair of input lists, the emitted arrival times are a
subsequence of the arrivals input (each destination arrival consumed at most once)
and are strictly increasing whenever the arrivals input is strictly increasing; the
emitted departure times are a subsequence of the departures input; and the number of
emitted pairs is at most the minimum of the two input lengths. -/
theorem c10_matcher_subsequences (deps arrs : List ℚ) :
    ((pair_departure_and_destination deps arrs).map Prod.snd).Sublist arrs ∧
    ((pair_departure_and_destination deps arrs).map Prod.fst).Sublist deps ∧
    (pair_departure_and_destination deps arrs).length ≤
      min deps.length arrs.length ∧
    (arrs.Sorted (· < ·) →
      ((pair_departure_and_destination deps arrs).map Prod.snd).Sorted (· < ·)) := by
  refine ⟨pairAux_snd_sublist MIN_TRAVEL_SECONDS arrs deps,
    pairAux_fst_sublist MIN_TRAVEL_SECONDS arrs deps, ?_, ?_⟩
  · have h1 := (pairAux_fst_sublist MIN_TRAVEL_SECONDS arrs deps).length_le
    have h2 := (pairAux_snd_sublist MIN_TRAVEL_SECONDS arrs deps).length_le
    rw [List.length_map] at h1 h2
    exact le_min h1 h2
  · intro hs
    exact hs.sublist (pairAux_snd_sublist MIN_TRAVEL_SECONDS arrs deps)

/-- C10 (amended) witness: the strict-increase implication discharged at
`deps = [0]`, `arrs = [700]`. -/
theorem c10_witness :
    List.Sorted (· < ·) [(700 : ℚ)] ∧
    ((pair_departure_and_destination [0] [700]).map Prod.snd).Sorted (· < ·) :=
  ⟨by decide, (c10_matcher_subsequences [0] [700]).2.2.2 (by decide)⟩

/-! ### Claim theorems: sampler (C1, C9) -/

theorem findScan_spec (jit : ℕ → ℚ) (az : ℚ) :
    ∀ (ts : List (ℚ × ℚ)) (i : ℕ),
      (∃ k, k < ts.length ∧
        (∀ m, m < k → ¬ az ≤ (ts.getD m (0, 0)).1 + jit (i + m)) ∧
        az ≤ (ts.getD k (0, 0)).1 + jit (i + k) ∧
        findScan jit az ts i =
          some ((ts.getD k (0, 0)).1 + jit (i + k), (ts.getD k (0, 0)).2,
            (ts.getD k (0, 0)).2 - (ts.getD k (0, 0)).1)) ∨
      ((∀ k, k < ts.length → ¬ az ≤ (ts.getD k (0, 0)).1 + jit (i + k)) ∧
        findScan jit az ts i = none) := by
  intro ts
  induction ts with
  | nil =>
    intro i
    right
    exact ⟨fun k hk => absurd hk (by simp), rfl⟩
  | cons t ts ih =>
    intro i
    obtain ⟨d, a⟩ := t
    by_cases h : az ≤ d + jit i
    · left
      refine ⟨0, by simp, fun m hm => absurd hm (by omega), by simpa using h, ?_⟩
      simp [findScan, h]
    · rcases ih (i + 1) with ⟨k, hk, hmin, hq, heq⟩ | ⟨hall, heq⟩
      · left
        refine ⟨k + 1, by simpa using hk, ?_, ?_, ?_⟩
        · intro m hm
          cases m with
          | zero => simpa using h
          | succ m =>
            have := hmin m (by omega)
            simpa [Nat.add_assoc, Nat.add_comm 1 m] using this
        · have := hq
          simpa [Nat.add_assoc, Nat.add_comm 1 k] using this
        · rw [findScan, if_neg h, heq]
          simp [Nat.add_assoc, Nat.add_comm 1 k]
      · right
        refine ⟨?_, by rw [findScan, if_neg h, heq]⟩
        intro k hk
        cases k with
        | zero => simpa using h
        | succ k =>
          have := hall k (by simpa using hk)
          simpa [Nat.add_assoc, Nat.add_comm 1 k] using this

/-- C1: for a non-empty trip list, `_find_catchable_bus` scans the trips in order,
adding one fresh jitter draw per scanned trip to its scheduled departure, and returns
the first trip whose jittered actual departure is `>= walk_end` (together with its
scheduled arrival and scheduled ride span); if no trip qualifies it returns the last
trip with one further fresh jitter draw (index `trips.length`) applied to that trip's
scheduled departure, with its scheduled arrival and scheduled ride span. -/
theorem c1_find_catchable_bus (jit : ℕ → ℚ) (walkEnd : ℚ) (trips : List (ℚ × ℚ))
    (h : trips ≠ []) :
    (∃ k, k < trips.length ∧
      (∀ m, m < k → ¬ walkEnd ≤ (trips.getD m (0, 0)).1 + jit m) ∧
      walkEnd ≤ (trips.getD k (0, 0)).1 + jit k ∧
      find_catchable_bus jit walkEnd trips =
        ((trips.getD k (0, 0)).1 + jit k, (trips.getD k (0, 0)).2,
          (trips.getD k (0, 0)).2 - (trips.getD k (0, 0)).1)) ∨
    ((∀ k, k < trips.length → ¬ walkEnd ≤ (trips.getD k (0, 0)).1 + jit k) ∧
      find_catchable_bus jit walkEnd trips =
        ((trips.getLast h).1 + jit trips.length, (trips.getLast h).2,
          (trips.getLast h).2 - (trips.getLast h).1)) := by
  cases trips with
  | nil => exact absurd rfl h
  | cons t ts =>
    rcases findScan_spec jit walkEnd (t :: ts) 0 with ⟨k, hk, hmin, hq, heq⟩ | ⟨hall, heq⟩
    · left
      refine ⟨k, hk, ?_, ?_, ?_⟩
      · intro m hm
        simpa using hmin m hm
      · simpa using hq
      · simp only [find_catchable_bus, heq]
        simp
    · right
      refine ⟨?_, ?_⟩
      · intro k hk
        simpa using hall k hk
      · simp only [find_catchable_bus, heq]

/-- C1 witness: the theorem at `trips = [(5, 10)]`, `walk_end = 0`, zero jitters
(the single trip qualifies immediately). -/
theorem c1_witness :
    ([((5 : ℚ), (10 : ℚ))] ≠ []) ∧
    ((∃ k, k < [((5 : ℚ), (10 : ℚ))].length ∧
      (∀ m, m < k →
        ¬ (0 : ℚ) ≤ ([((5 : ℚ), (10 : ℚ))].getD m (0, 0)).1 + (fun _ => (0 : ℚ)) m) ∧
      (0 : ℚ) ≤ ([((5 : ℚ), (10 : ℚ))].getD k (0, 0)).1 + (fun _ => (0 : ℚ)) k ∧
      find_catchable_bus (fun _ => (0 : ℚ)) 0 [(5, 10)] =
        (([((5 : ℚ), (10 : ℚ))].getD k (0, 0)).1 + (fun _ => (0 : ℚ)) k,
          ([((5 : ℚ), (10 : ℚ))].getD k (0, 0)).2,
          ([((5 : ℚ), (10 : ℚ))].getD k (0, 0)).2 -
            ([((5 : ℚ), (10 : ℚ))].getD k (0, 0)).1)) ∨
    ((∀ k, k < [((5 : ℚ), (10 : ℚ))].length →
        ¬ (0 : ℚ) ≤ ([((5 : ℚ), (10 : ℚ))].getD k (0, 0)).1 + (fun _ => (0 : ℚ)) k) ∧
      find_catchable_bus (fun _ => (0 : ℚ)) 0 [(5, 10)] =
        (([((5 : ℚ), (10 : ℚ))].getLast (List.cons_ne_nil _ _)).1 +
            (fun _ => (0 : ℚ)) [((5 : ℚ), (10 : ℚ))].length,
          ([((5 : ℚ), (10 : ℚ))].getLast (List.cons_ne_nil _ _)).2,
          ([((5 : ℚ), (10 : ℚ))].getLast (List.cons_ne_nil _ _)).2 -
            ([((5 : ℚ), (10 : ℚ))].getLast (List.cons_ne_nil _ _)).1))) :=
  ⟨List.cons_ne_nil _ _,
    c1_find_catchable_bus (fun _ => 0) 0 [(5, 10)] (List.cons_ne_nil _ _)⟩

/-- C9: every sample reports `lateness = max(0, final_arrival - appointment_deadline)`
and `wait_dur = max(0, actual_bus_departure - walk_end)`, and both are nonnegative
for every jitter outcome (including the fallback branches where the jittered bus
departure precedes the walk-arrival). -/
theorem c9_sample_clamps (sim : Simulator) (ω : Omega) (departure : ℚ)
    (trips : List (ℚ × ℚ)) :
    (simulate_step sim ω departure trips).lateness =
      max 0 ((simulate_step sim ω departure trips).arrival - sim.class_start) ∧
    (simulate_step sim ω departure trips).waitDur =
      max 0 ((simulate_step sim ω departure trips).busDep -
        (simulate_step sim ω departure trips).walkEnd) ∧
    0 ≤ (simulate_step sim ω departure trips).lateness ∧
    0 ≤ (simulate_step sim ω departure trips).waitDur :=
  ⟨rfl, rfl, le_max_left 0 _, le_max_left 0 _⟩

/-! ### Claim theorems: Monte Carlo estimator (C4, C8) -/

theorem countLate_le (sim : Simulator) (draws : ℕ → Omega) (departure : ℚ)
    (trips : List (ℚ × ℚ)) :
    ∀ (n dc : ℕ), countLate sim draws departure trips dc n ≤ n := by
  intro n
  induction n with
  | zero => intro dc; simp [countLate]
  | succ n ih =>
    intro dc
    have := ih (dc + 1)
    rw [countLate]
    split <;> omega

theorem countLate_eq_countP (sim : Simulator) (draws : ℕ → Omega) (departure : ℚ)
    (trips : List (ℚ × ℚ)) :
    ∀ (n dc : ℕ), countLate sim draws departure trips dc n =
      (List.range n).countP
        (fun i =>
          decide (0 < (simulate_step sim (draws (dc + i)) departure trips).lateness)) := by
  intro n
  induction n with
  | zero => intro dc; simp [countLate]
  | succ n ih =>
    intro dc
    rw [countLate, ih (dc + 1), List.range_succ_eq_map, List.countP_cons,
      List.countP_map]
    have hfun :
        ((fun i =>
            decide
              (0 < (simulate_step sim (draws (dc + i)) departure trips).lateness)) ∘
          Nat.succ) =
        (fun i =>
          decide
            (0 < (simulate_step sim (draws (dc + 1 + i)) departure trips).lateness)) := by
      funext i
      have hi : dc + Nat.succ i = dc + 1 + i := by omega
      simp [Function.comp, hi]
    rw [hfun]
    simp only [Nat.add_zero]
    split <;> simp_all [Nat.add_comm]

/-- C4 counterexample: at `n_iterations = -1` (which is `< 1`) the estimator does not
fail; the Python loop `for _ in range(-1)` is empty and the function returns
`0 / -1 = 0.0`. -/
theorem c4_counterexample :
    (-1 : ℤ) < 1 ∧
    compute_lateness_probability sim0 (fun _ => omega0) 0 0 [] (-1) = some 0 := by
  refine ⟨by decide, ?_⟩
  norm_num [compute_lateness_probability, countLate]

/-- C4 (amended): no iteration-count validation is performed.  Only
`n_iterations = 0` makes the estimator fail (an unhandled `ZeroDivisionError` at the
final division, not a configuration error at startup); for every negative
`n_iterations` the trial loop runs zero times and the estimator returns the value
`0.0` normally. -/
theorem c4_no_validation (sim : Simulator) (draws : ℕ → Omega) (dc : ℕ)
    (departure : ℚ) (trips : List (ℚ × ℚ)) (n : ℤ) :
    (n = 0 → compute_lateness_probability sim draws dc departure trips n = none) ∧
    (n < 0 → compute_lateness_probability sim draws dc departure trips n = some 0) := by
  constructor
  · intro h
    simp [compute_lateness_probability, h]
  · intro h
    have hne : n ≠ 0 := ne_of_lt h
    have h0 : n.toNat = 0 := Int.toNat_of_nonpos (le_of_lt h)
    simp [compute_lateness_probability, hne, h0, countLate]

/-- C4 (amended) witness: the negative branch discharged at `n_iterations = -1`. -/
theorem c4_witness :
    ((-1 : ℤ) < 0) ∧
    compute_lateness_probability sim0 (fun _ => omega0) 0 0 [] (-1) = some 0 :=
  ⟨by decide, (c4_no_validation sim0 (fun _ => omega0) 0 0 [] (-1)).2 (by decide)⟩

/-- C8: for every `n_iterations >= 1`, the estimator runs the sampler exactly
`n_iterations` times (consuming the draws at indices `dc, dc+1, ...`) and returns
exactly `k / n_iterations` where `k` counts the trials with lateness `> 0`; the
result is an exact multiple of `1 / n_iterations` and lies in `[0, 1]`. -/
theorem c8_estimator (sim : Simulator) (draws : ℕ → Omega) (dc : ℕ) (departure : ℚ)
    (trips : List (ℚ × ℚ)) (n : ℤ) (h : 1 ≤ n) :
    ∃ k : ℕ,
      k = (List.range n.toNat).countP
        (fun i =>
          decide (0 < (simulate_step sim (draws (dc + i)) departure trips).lateness)) ∧
      k ≤ n.toNat ∧
      compute_lateness_probability sim draws dc departure trips n =
        some ((k : ℚ) / (n : ℚ)) ∧
      0 ≤ (k : ℚ) / (n : ℚ) ∧ (k : ℚ) / (n : ℚ) ≤ 1 := by
  have hne : n ≠ 0 := by omega
  have hn0 : (0 : ℚ) < (n : ℚ) := by exact_mod_cast (by omega : (0 : ℤ) < n)
  refine ⟨countLate sim draws departure trips dc n.toNat,
    countLate_eq_countP sim draws departure trips n.toNat dc,
    countLate_le sim draws departure trips n.toNat dc, ?_, ?_, ?_⟩
  · simp [compute_lateness_probability, hne]
  · exact div_nonneg (by positivity) (le_of_lt hn0)
  · rw [div_le_one hn0]
    have hk := countLate_le sim draws departure trips n.toNat dc
    have hcast : ((n.toNat : ℚ)) = (n : ℚ) := by
      exact_mod_cast congrArg (fun z : ℤ => (z : ℚ)) (Int.toNat_of_nonneg (by omega))
    calc ((countLate sim draws departure trips dc n.toNat : ℚ))
        ≤ (n.toNat : ℚ) := by exact_mod_cast hk
      _ = (n : ℚ) := hcast

/-- C8 witness: the theorem at `n_iterations = 1`, an empty trip list and zero
jitters. -/
theorem c8_witness :
    (1 : ℤ) ≤ 1 ∧
    ∃ k : ℕ,
      k = (List.range (1 : ℤ).toNat).countP
        (fun i =>
          decide (0 < (simulate_step sim0 ((fun _ => omega0) (0 + i)) 0 []).lateness)) ∧
      k ≤ (1 : ℤ).toNat ∧
      compute_lateness_probability sim0 (fun _ => omega0) 0 0 [] 1 =
        some ((k : ℚ) / ((1 : ℤ) : ℚ)) ∧
      0 ≤ (k : ℚ) / ((1 : ℤ) : ℚ) ∧ (k : ℚ) / ((1 : ℤ) : ℚ) ≤ 1 :=
  ⟨le_refl 1, c8_estimator sim0 (fun _ => omega0) 0 0 [] 1 (le_refl 1)⟩

/-! ### Claim theorems: sweep refresh (C5, C6) -/

/-- C5 counterexample: a step with an empty TripSet (so the claimed condition holds)
but a fetch only 100 s old.  The controller does not request the fresh series that
the data sources would deliver (pairing to `[(0, 700)]`): the fetch cursor, the trip
list and `last_refresh` are all left untouched. -/
theorem c5_counterexample :
    st5.trips = [] ∧
    tdSeconds ((100 : ℚ) - 0) < 300 ∧
    pair_departure_and_destination (env5.fetches st5.fetchCount)
      (env5.fetches (st5.fetchCount + 1)) = [(0, 700)] ∧
    (refreshIfEmpty env5 st5 100).fetchCount = st5.fetchCount ∧
    (refreshIfEmpty env5 st5 100).trips = [] ∧
    (refreshIfEmpty env5 st5 100).lastFetch = some 0 := by
  have htd : tdSeconds ((100 : ℚ) - 0) = 100 := by
    norm_num [tdSeconds]
  have htd1 : tdSeconds (100 : ℚ) = 100 := by
    norm_num [tdSeconds]
  refine ⟨rfl, by rw [htd]; norm_num, ?_, ?_, ?_, ?_⟩
  · norm_num [env5, st5, pair_departure_and_destination, pairAux, pairGo,
      MIN_TRAVEL_SECONDS, BUS_TRAVEL_BASE_SECONDS, BUS_TRAVEL_VARIABILITY_SECONDS]
  all_goals
    simp [refreshIfEmpty, st5, fetch_and_pair, adoptFetch, htd, htd1]

/-- C5 (amended): at each sweep step a refresh is attempted only when the TripSet is
empty, and the two series are actually requested only if `last_refresh` is unset or
at least 300 s (of the `timedelta.seconds` attribute) has elapsed; in that case the
TripSet is recomputed via the Matcher (the empty-trip state means the result is
adopted as-is) and `last_refresh` is set to the current step time.  With a non-empty
TripSet, or a fetch more recent than 300 s, the step changes nothing. -/
theorem c5_refresh_behavior (env : SweepEnv) (st : SweepState) (current : ℚ) :
    (st.trips ≠ [] → refreshIfEmpty env st current = st) ∧
    (st.trips = [] → st.lastFetch = none →
      (refreshIfEmpty env st current).trips =
        pair_departure_and_destination (env.fetches st.fetchCount)
          (env.fetches (st.fetchCount + 1)) ∧
      (refreshIfEmpty env st current).lastFetch = some current ∧
      (refreshIfEmpty env st current).fetchCount = st.fetchCount + 2) ∧
    (st.trips = [] → ∀ lf, st.lastFetch = some lf →
      300 ≤ tdSeconds (current - lf) →
      (refreshIfEmpty env st current).trips =
        pair_departure_and_destination (env.fetches st.fetchCount)
          (env.fetches (st.fetchCount + 1)) ∧
      (refreshIfEmpty env st current).lastFetch = some current ∧
      (refreshIfEmpty env st current).fetchCount = st.fetchCount + 2) ∧
    (st.trips = [] → ∀ lf, st.lastFetch = some lf →
      tdSeconds (current - lf) < 300 →
      refreshIfEmpty env st current = st) := by
  refine ⟨?_, ?_, ?_, ?_⟩
  · intro h
    simp [refreshIfEmpty, h]
  · intro ht hl
    have hre : refreshIfEmpty env st current =
        adoptFetch st
          (pair_departure_and_destination (env.fetches st.fetchCount)
            (env.fetches (st.fetchCount + 1)), some current, st.fetchCount + 2) := by
      rw [refreshIfEmpty, if_pos ht, hl]
      rfl
    rw [hre]
    exact adoptFetch_of_empty_trips st _ _ _ ht
  · intro ht lf hl hge
    have hre : refreshIfEmpty env st current =
        adoptFetch st
          (pair_departure_and_destination (env.fetches st.fetchCount)
            (env.fetches (st.fetchCount + 1)), some current, st.fetchCount + 2) := by
      rw [refreshIfEmpty, if_pos ht, hl]
      simp only [fetch_and_pair, if_pos hge]
    rw [hre]
    exact adoptFetch_of_empty_trips st _ _ _ ht
  · intro ht lf hl hlt
    have hcond : ¬ (300 ≤ tdSeconds (current - lf)) := not_le.mpr hlt
    have hre : refreshIfEmpty env st current =
        adoptFetch st ([], some lf, st.fetchCount) := by
      rw [refreshIfEmpty, if_pos ht, hl]
      simp only [fetch_and_pair, if_neg hcond]
    rw [hre]
    cases st with
    | mk trips lastFetch fetchCount drawCount times probs =>
      simp only at hl
      simp [adoptFetch, hl]

/-- C5 (amended) witness: the non-empty-TripSet branch discharged at `st5b`
(one known trip, fetch 100 s old): the step changes nothing. -/
theorem c5_witness :
    (st5b.trips ≠ []) ∧ refreshIfEmpty env5 st5b 100 = st5b :=
  ⟨by decide, (c5_refresh_behavior env5 st5b 100).1 (by decide)⟩

/-- C6: the staleness re-fetch is not unconditional.  At `current = 100` with
`last_refresh = 0` (only 100 s ago, under the 300 s interval) and a drawn sample
whose `bus_dep` (0) precedes its `walk_end` (400), the staleness branch triggers and
re-draws a sample, but the refresh goes through the interval-guarded
`fetch_and_pair`, so no data is requested: the fetch cursor, trip list and
`last_refresh` are unchanged, contradicting the documented
"force an immediate unconditional refresh (bypassing the interval check)". -/
theorem c6_staleness_no_refresh :
    s6.busDep < s6.walkEnd ∧
    tdSeconds ((100 : ℚ) - 0) < 300 ∧
    (stalenessPhase env5 st6 100 s6).1.fetchCount = st6.fetchCount ∧
    (stalenessPhase env5 st6 100 s6).1.trips = st6.trips ∧
    (stalenessPhase env5 st6 100 s6).1.lastFetch = st6.lastFetch ∧
    (stalenessPhase env5 st6 100 s6).1.drawCount = st6.drawCount + 1 := by
  have htd : tdSeconds ((100 : ℚ) - 0) = 100 := by
    norm_num [tdSeconds]
  have hbd : s6.busDep = 0 ∧ s6.walkEnd = 400 := by
    constructor <;>
      norm_num [s6, simulate_step, find_catchable_bus, findScan, sweepSim, env5,
        omega0, WALK_DURATION_HOME_TO_ZOO, WALK_DURATION_TOOMPARK_TO_OFFICE,
        List.getLast]
  have hlt : s6.busDep < s6.walkEnd := by rw [hbd.1, hbd.2]; norm_num
  have htd1 : tdSeconds (100 : ℚ) = 100 := by
    norm_num [tdSeconds]
  refine ⟨hlt, by rw [htd]; norm_num, ?_, ?_, ?_, ?_⟩
  all_goals
    simp [stalenessPhase, if_pos hlt, st6, fetch_and_pair, adoptFetch, htd, htd1]

/-! ### Claim theorems: sweep probability curve (C2, C3) -/

theorem refreshIfEmpty_probs (env : SweepEnv) (st : SweepState) (current : ℚ) :
    (refreshIfEmpty env st current).probs = st.probs := by
  rw [refreshIfEmpty]
  split <;> rfl

theorem stalenessPhase_probs (env : SweepEnv) (st : SweepState) (current : ℚ)
    (s : Sample) : ((stalenessPhase env st current s).1).probs = st.probs := by
  rw [stalenessPhase]
  split <;> rfl

theorem preEstimate_probs (env : SweepEnv) (st : SweepState) (current : ℚ) :
    (preEstimate env st current).probs = st.probs := by
  unfold preEstimate
  rw [stalenessPhase_probs]
  exact refreshIfEmpty_probs env st current

/-- The step's appended probability (main.py lines 150-159): the raw Monte Carlo
estimate, clamped from below by the previous emission when one exists. -/
theorem sweepStep_probs_eq (env : SweepEnv) (st : SweepState) (current : ℚ) :
    (sweepStep env st current).probs =
      st.probs ++
        [match st.probs.getLast? with
          | none => stepRaw env (preEstimate env st current) current
          | some prev => max (stepRaw env (preEstimate env st current) current) prev] := by
  simp only [sweepStep]
  rw [preEstimate_probs]

theorem chain_append_one (l : List ℚ) (p : ℚ) (h : l.Chain' (· ≤ ·))
    (hp : ∀ y ∈ l.getLast?, y ≤ p) : (l ++ [p]).Chain' (· ≤ ·) := by
  refine List.chain'_append.mpr ⟨h, List.chain'_singleton p, ?_⟩
  intro x hx y hy
  have hy1 : p = y := by simpa using hy
  exact hy1 ▸ hp x hx

theorem sweepStep_probs_chain (env : SweepEnv) (st : SweepState) (current : ℚ)
    (h : st.probs.Chain' (· ≤ ·)) :
    ((sweepStep env st current).probs).Chain' (· ≤ ·) := by
  rw [sweepStep_probs_eq]
  apply chain_append_one _ _ h
  intro y hy
  cases hl : st.probs.getLast? with
  | none => exact absurd hy (by simp [hl])
  | some prev =>
    rw [hl] at hy
    have hy1 : prev = y := by simpa using hy
    subst hy1
    exact le_max_right _ _

theorem runSweep_probs_chain (env : SweepEnv) (stepSize endT : ℚ) :
    ∀ (fuel : ℕ) (current : ℚ) (st : SweepState), st.probs.Chain' (· ≤ ·) →
      ((runSweep env stepSize endT fuel current st).probs).Chain' (· ≤ ·) := by
  intro fuel
  induction fuel with
  | zero => intro current st h; exact h
  | succ fuel ih =>
    intro current st h
    rw [runSweep]
    split
    · exact ih _ _ (sweepStep_probs_chain env st current h)
    · exact h

/-- C2: the emitted probability at each sweep step is `max(raw, previous emission)`
(the raw value itself at the first step), and consequently the probability list of
every sweep run is non-decreasing, regardless of the raw estimator values. -/
theorem c2_monotone_curve (env : SweepEnv) (start endT stepSize : ℚ) (fuel : ℕ) :
    (∀ (st : SweepState) (current : ℚ),
      (sweepStep env st current).probs =
        st.probs ++
          [match st.probs.getLast? with
            | none => stepRaw env (preEstimate env st current) current
            | some prev =>
              max (stepRaw env (preEstimate env st current) current) prev]) ∧
    ((simulate_curve env start endT stepSize fuel).2).Sorted (· ≤ ·) := by
  refine ⟨fun st current => sweepStep_probs_eq env st current, ?_⟩
  have h := runSweep_probs_chain env stepSize endT fuel start initState
    List.chain'_nil
  have h2 : (simulate_curve env start endT stepSize fuel).2 =
      (runSweep env stepSize endT fuel start initState).probs := rfl
  rw [h2]
  exact List.chain'_iff_pairwise.mp h

theorem fetch_and_pair_fst_empty (env : SweepEnv) (hF : ∀ k, env.fetches k = [])
    (fc : ℕ) (lf : Option ℚ) (current : ℚ) :
    (fetch_and_pair env fc lf current).1 = [] := by
  have hp : pair_departure_and_destination (env.fetches fc)
      (env.fetches (fc + 1)) = [] := by
    rw [hF fc, hF (fc + 1)]
    rfl
  cases lf with
  | none => simpa [fetch_and_pair] using hp
  | some lf =>
    rw [fetch_and_pair]
    split
    · simpa using hp
    · rfl

theorem refreshIfEmpty_trips_empty (env : SweepEnv) (hF : ∀ k, env.fetches k = [])
    (st : SweepState) (current : ℚ) (ht : st.trips = []) :
    (refreshIfEmpty env st current).trips = [] := by
  rw [refreshIfEmpty, if_pos ht]
  have h1 := fetch_and_pair_fst_empty env hF st.fetchCount st.lastFetch current
  simp [adoptFetch, h1, ht]

theorem simulate_busDep_walkEnd_empty (sim : Simulator) (ω : Omega) (c : ℚ) :
    (simulate_step sim ω c []).busDep = (simulate_step sim ω c []).walkEnd := rfl

theorem preEstimate_of_empty (env : SweepEnv) (hF : ∀ k, env.fetches k = [])
    (st : SweepState) (current : ℚ) (ht : st.trips = []) :
    (preEstimate env st current).trips = [] := by
  have h1 := refreshIfEmpty_trips_empty env hF st current ht
  simp only [preEstimate]
  rw [h1]
  rw [stalenessPhase,
    if_neg (by rw [simulate_busDep_walkEnd_empty]; exact lt_irrefl _)]

theorem countLate_all_late (sim : Simulator) (draws : ℕ → Omega) (departure : ℚ)
    (trips : List (ℚ × ℚ))
    (h : ∀ i, 0 < (simulate_step sim (draws i) departure trips).lateness) :
    ∀ (n dc : ℕ), countLate sim draws departure trips dc n = n := by
  intro n
  induction n with
  | zero => intro dc; rfl
  | succ n ih =>
    intro dc
    rw [countLate, if_pos (h dc), ih (dc + 1)]
    omega

theorem countLate_all_onTime (sim : Simulator) (draws : ℕ → Omega) (departure : ℚ)
    (trips : List (ℚ × ℚ))
    (h : ∀ i, ¬ 0 < (simulate_step sim (draws i) departure trips).lateness) :
    ∀ (n dc : ℕ), countLate sim draws departure trips dc n = 0 := by
  intro n
  induction n with
  | zero => intro dc; rfl
  | succ n ih =>
    intro dc
    rw [countLate, if_neg (h dc), ih (dc + 1)]

/-- With an empty trip list, a sample's lateness comes out positive as soon as the
departure is later than the deadline minus the two base walking legs net of the
worst-case (bound-sized) favourable jitters. -/
theorem late_of_empty (env : SweepEnv) (ω : Omega) (c : ℚ)
    (hW : |ω.walkJitter| ≤ WALK_VARIABILITY_SECONDS)
    (hR : |ω.rideJitter| ≤ BUS_TRAVEL_VARIABILITY_SECONDS)
    (hG : |ω.finalWalkJitter| ≤ WALK_VARIABILITY_SECONDS)
    (hc : env.class_start -
        (WALK_DURATION_HOME_TO_ZOO + WALK_DURATION_TOOMPARK_TO_OFFICE) +
        (2 * WALK_VARIABILITY_SECONDS + BUS_TRAVEL_VARIABILITY_SECONDS) < c) :
    0 < (simulate_step (sweepSim env) ω c []).lateness := by
  have e1 : (simulate_step (sweepSim env) ω c []).lateness =
      max 0 ((((c + (WALK_DURATION_HOME_TO_ZOO + ω.walkJitter)) + (0 + ω.rideJitter)) +
        (WALK_DURATION_TOOMPARK_TO_OFFICE + ω.finalWalkJitter)) -
          env.class_start) := rfl
  have hW1 := (abs_le.mp hW).1
  have hR1 := (abs_le.mp hR).1
  have hG1 := (abs_le.mp hG).1
  rw [e1, lt_max_iff]
  right
  rw [WALK_VARIABILITY_SECONDS, BUS_TRAVEL_VARIABILITY_SECONDS,
    WALK_DURATION_HOME_TO_ZOO, WALK_DURATION_TOOMPARK_TO_OFFICE] at *
  linarith

theorem c3_step (env : SweepEnv) (hF : ∀ k, env.fetches k = [])
    (hW : ∀ n, |(env.draws n).walkJitter| ≤ WALK_VARIABILITY_SECONDS)
    (hR : ∀ n, |(env.draws n).rideJitter| ≤ BUS_TRAVEL_VARIABILITY_SECONDS)
    (hG : ∀ n, |(env.draws n).finalWalkJitter| ≤ WALK_VARIABILITY_SECONDS)
    (st : SweepState) (current : ℚ) (ht : st.trips = [])
    (hp : ∀ p ∈ st.probs, p = 1)
    (hc : env.class_start -
        (WALK_DURATION_HOME_TO_ZOO + WALK_DURATION_TOOMPARK_TO_OFFICE) +
        (2 * WALK_VARIABILITY_SECONDS + BUS_TRAVEL_VARIABILITY_SECONDS) < current) :
    (sweepStep env st current).trips = [] ∧
    ∀ p ∈ (sweepStep env st current).probs, p = 1 := by
  have htr : (preEstimate env st current).trips = [] :=
    preEstimate_of_empty env hF st current ht
  have hraw : stepRaw env (preEstimate env st current) current = 1 := by
    unfold stepRaw
    rw [htr, countLate_all_late (sweepSim env) env.draws current []
      (fun i => late_of_empty env (env.draws i) current (hW i) (hR i) (hG i) hc)]
    norm_num [MONTE_CARLO_ITERATIONS]
  constructor
  · have : (sweepStep env st current).trips = (preEstimate env st current).trips := rfl
    rw [this, htr]
  · rw [sweepStep_probs_eq]
    intro p hp2
    rcases List.mem_append.mp hp2 with h1 | h1
    · exact hp p h1
    · have hp1 := List.mem_singleton.mp h1
      cases hl : st.probs.getLast? with
      | none => rw [hl] at hp1; rw [hp1, hraw]
      | some prev =>
        have hprev : prev = 1 := hp prev (List.mem_of_mem_getLast? hl)
        rw [hl] at hp1
        rw [hp1, hraw, hprev]
        exact max_self 1

theorem c3_run (env : SweepEnv) (hF : ∀ k, env.fetches k = [])
    (hW : ∀ n, |(env.draws n).walkJitter| ≤ WALK_VARIABILITY_SECONDS)
    (hR : ∀ n, |(env.draws n).rideJitter| ≤ BUS_TRAVEL_VARIABILITY_SECONDS)
    (hG : ∀ n, |(env.draws n).finalWalkJitter| ≤ WALK_VARIABILITY_SECONDS)
    (stepSize endT : ℚ) (hs : 0 ≤ stepSize) :
    ∀ (fuel : ℕ) (current : ℚ) (st : SweepState),
      env.class_start -
        (WALK_DURATION_HOME_TO_ZOO + WALK_DURATION_TOOMPARK_TO_OFFICE) +
        (2 * WALK_VARIABILITY_SECONDS + BUS_TRAVEL_VARIABILITY_SECONDS) < current →
      st.trips = [] → (∀ p ∈ st.probs, p = 1) →
      ∀ p ∈ (runSweep env stepSize endT fuel current st).probs, p = 1 := by
  intro fuel
  induction fuel with
  | zero => intro current st hc ht hp; exact hp
  | succ fuel ih =>
    intro current st hc ht hp
    rw [runSweep]
    split
    · have hstep := c3_step env hF hW hR hG st current ht hp hc
      exact ih (current + stepSize) _ (by linarith) hstep.1 hstep.2
    · exact hp

/-- C3 counterexample: with every fetch empty (TripSet stays empty all sweep) and
all jitters zero, departing at `t = 0` for a deadline at `t = 10000`, the degenerate
fallback sample arrives at `t = 540` and has lateness `0` (not `> 0`), and the first
emitted probability is `0`, not `1.0`. -/
theorem c3_counterexample :
    (∀ k, env3.fetches k = []) ∧
    (simulate_step (sweepSim env3) (env3.draws 0) 0 []).lateness = 0 ∧
    (sweepStep env3 initState 0).probs = [0] := by
  have e : ∀ i : ℕ, (simulate_step (sweepSim env3) (env3.draws i) 0 []).lateness = 0 := by
    intro i
    have e1 : (simulate_step (sweepSim env3) (env3.draws i) 0 []).lateness =
        max 0 (((((0 : ℚ) + (WALK_DURATION_HOME_TO_ZOO + 0)) + (0 + 0)) +
          (WALK_DURATION_TOOMPARK_TO_OFFICE + 0)) - 10000) := rfl
    rw [e1, max_eq_left]
    norm_num [WALK_DURATION_HOME_TO_ZOO, WALK_DURATION_TOOMPARK_TO_OFFICE]
  refine ⟨fun k => rfl, e 0, ?_⟩
  rw [sweepStep_probs_eq]
  have hraw : stepRaw env3 (preEstimate env3 initState 0) 0 = 0 := by
    unfold stepRaw
    rw [preEstimate_of_empty env3 (fun k => rfl) initState 0 rfl,
      countLate_all_onTime (sweepSim env3) env3.draws 0 []
        (fun i => by rw [e i]; exact lt_irrefl 0)]
    norm_num
  show [stepRaw env3 (preEstimate env3 initState 0) 0] = [0]
  rw [hraw]

/-- C3 (amended): if every fetch returns nothing (so the TripSet is empty at every
step) and the jitters respect their configured bounds, then -- provided every
departure in the window is later than the deadline minus the base walking time net
of the worst-case favourable jitters -- every drawn sample has lateness `> 0` and
every emitted probability equals exactly `1.0`, from the first step onward.  (The
bound is necessary: see the counterexample, where an early enough departure walks
the whole way and arrives on time even with no bus at all.) -/
theorem c3_empty_schedule (env : SweepEnv) (start endT stepSize : ℚ) (fuel : ℕ)
    (hF : ∀ k, env.fetches k = [])
    (hW : ∀ n, |(env.draws n).walkJitter| ≤ WALK_VARIABILITY_SECONDS)
    (hR : ∀ n, |(env.draws n).rideJitter| ≤ BUS_TRAVEL_VARIABILITY_SECONDS)
    (hG : ∀ n, |(env.draws n).finalWalkJitter| ≤ WALK_VARIABILITY_SECONDS)
    (hs : 0 ≤ stepSize)
    (hstart : env.class_start -
        (WALK_DURATION_HOME_TO_ZOO + WALK_DURATION_TOOMPARK_TO_OFFICE) +
        (2 * WALK_VARIABILITY_SECONDS + BUS_TRAVEL_VARIABILITY_SECONDS) < start) :
    (∀ (dc : ℕ) (c : ℚ),
      env.class_start -
        (WALK_DURATION_HOME_TO_ZOO + WALK_DURATION_TOOMPARK_TO_OFFICE) +
        (2 * WALK_VARIABILITY_SECONDS + BUS_TRAVEL_VARIABILITY_SECONDS) < c →
      0 < (simulate_step (sweepSim env) (env.draws dc) c []).lateness) ∧
    (∀ p ∈ (simulate_curve env start endT stepSize fuel).2, p = 1) := by
  constructor
  · intro dc c hc
    exact late_of_empty env (env.draws dc) c (hW dc) (hR dc) (hG dc) hc
  · intro p hp
    exact c3_run env hF hW hR hG stepSize endT hs fuel start initState hstart rfl
      (fun q hq => absurd hq (List.not_mem_nil q)) p hp

/-- C3 (amended) witness: the hypotheses discharged at the all-zero environment
`env3` (deadline 10000), a one-step window starting at `t = 9581`. -/
theorem c3_witness :
    ((∀ k, env3.fetches k = []) ∧
      (∀ n, |(env3.draws n).walkJitter| ≤ WALK_VARIABILITY_SECONDS) ∧
      (∀ n, |(env3.draws n).rideJitter| ≤ BUS_TRAVEL_VARIABILITY_SECONDS) ∧
      (∀ n, |(env3.draws n).finalWalkJitter| ≤ WALK_VARIABILITY_SECONDS) ∧
      (0 : ℚ) ≤ 30 ∧
      env3.class_start -
        (WALK_DURATION_HOME_TO_ZOO + WALK_DURATION_TOOMPARK_TO_OFFICE) +
        (2 * WALK_VARIABILITY_SECONDS + BUS_TRAVEL_VARIABILITY_SECONDS) < 9581) ∧
    ((∀ (dc : ℕ) (c : ℚ),
      env3.class_start -
        (WALK_DURATION_HOME_TO_ZOO + WALK_DURATION_TOOMPARK_TO_OFFICE) +
        (2 * WALK_VARIABILITY_SECONDS + BUS_TRAVEL_VARIABILITY_SECONDS) < c →
      0 < (simulate_step (sweepSim env3) (env3.draws dc) c []).lateness) ∧
    (∀ p ∈ (simulate_curve env3 9581 9581 30 1).2, p = 1)) :=
  ⟨⟨fun k => rfl,
    fun n => by norm_num [env3, omega0, WALK_VARIABILITY_SECONDS],
    fun n => by norm_num [env3, omega0, BUS_TRAVEL_VARIABILITY_SECONDS],
    fun n => by norm_num [env3, omega0, WALK_VARIABILITY_SECONDS],
    by norm_num,
    by norm_num [env3, WALK_DURATION_HOME_TO_ZOO, WALK_DURATION_TOOMPARK_TO_OFFICE,
      WALK_VARIABILITY_SECONDS, BUS_TRAVEL_VARIABILITY_SECONDS]⟩,
    c3_empty_schedule env3 9581 9581 30 1 (fun k => rfl)
      (fun n => by norm_num [env3, omega0, WALK_VARIABILITY_SECONDS])
      (fun n => by norm_num [env3, omega0, BUS_TRAVEL_VARIABILITY_SECONDS])
      (fun n => by norm_num [env3, omega0, WALK_VARIABILITY_SECONDS])
      (by norm_num)
      (by norm_num [env3, WALK_DURATION_HOME_TO_ZOO, WALK_DURATION_TOOMPARK_TO_OFFICE,
        WALK_VARIABILITY_SECONDS, BUS_TRAVEL_VARIABILITY_SECONDS])⟩

end RMK
